import Mathlib

/-!
# Verification of the HerbalChain traceability ledger

This file gives a shallow embedding of the core ledger / smart-contract
simulation of `script.js` (the `Block` / `Blockchain` classes: the
hash-linked chain, the per-actor inventories, the reputation scores, the
item master records, and the four contract operations `registerHerb`,
`verifyHerbReceipt`, `transferHerb`, `useHerbInMedicine`), together with
proofs and refutations of the specification's claims about it.

Modelling conventions:
* JavaScript numbers are modelled as exact rationals (`ℚ`); `Date.now()`
  timestamps as `ℕ`.  `parseFloat` applied to a numeric input is the
  identity in this model.
* JavaScript objects used as string-keyed dictionaries are modelled as
  insertion-ordered association lists (`List (String × _)`) with
  `mapGet` / `mapSet` mirroring property read / write.
* Operations that can throw a `TypeError` (reading a property of
  `undefined`) return the state reached at the point of the throw paired
  with `Except.error .typeError`; non-throwing calls return the final
  state paired with `Except.ok` of the `{success, message}` result object.
* The mutable record objects that `script.js` shares between the chain,
  the item master record and its history (the in-place `status` mutation
  performed by `verifyHerbReceipt`) are modelled by explicitly updating
  every aliased copy.
-/

namespace HerbChain

/-- Property read on a JS object used as a dictionary: the value stored
under key `k`, if present. -/
def mapGet {α : Type} (m : List (String × α)) (k : String) : Option α :=
  match m with
  | [] => none
  | p :: t => if p.1 = k then some p.2 else mapGet t k

/-- Property write on a JS object used as a dictionary: overwrite the
binding for `k` if present (keeping its position), otherwise append a new
binding (JS objects preserve insertion order). -/
def mapSet {α : Type} (m : List (String × α)) (k : String) (v : α) :
    List (String × α) :=
  if (mapGet m k).isSome then
    m.map (fun p => if p.1 = k then (k, v) else p)
  else
    m ++ [(k, v)]

/-- The `{score, status}` object produced by the "AI quality check"
collaborator and passed opaquely into the contract operations. -/
structure Quality where
  score : ℚ
  status : String
  deriving DecidableEq, Repr

/-- One element of the `usedBatches` array passed to `useHerbInMedicine`:
`{herbID, unitsUsed, unitType}` (the UI builds `unitsUsed` with
`parseFloat`, so it is a number). -/
structure UsedBatch where
  herbID : String
  unitsUsed : ℚ
  unitType : String
  deriving DecidableEq, Repr

/-- The chain-record payloads (`data` objects) built by the contract
operations, plus the genesis sentinel string `'Genesis Block'`.  Field
order matches the JS object-literal insertion order, which matters for
`JSON.stringify`. -/
inductive RecordData where
  | genesis
  | register (collectorID herbID name location : String) (quantity : ℚ)
      (unitType : String) (quality : Quality) (timestamp : ℕ) (status : String)
  | verifyReceipt (supplierID herbID : String) (verifiedQuantity : ℚ)
      (timestamp : ℕ)
  | fraudAlert (herbID : String) (claimedQuantity measuredQuantity : ℚ)
      (timestamp : ℕ)
  | transfer (fromID toID herbID : String) (weight : ℚ)
      (unitType location : String) (supplierQuality : Quality) (timestamp : ℕ)
  | useHerb (manufacturerID batchID location : String)
      (usedBatches : List UsedBatch) (finalWeight : ℚ) (finalUnit : String)
      (manufacturerQuality : Quality) (timestamp : ℕ)
  deriving DecidableEq, Repr

/-! ## JSON serialization (`JSON.stringify`) -/

/-- `JSON.stringify` escaping of a single character inside a string
literal. -/
def jsonEscapeChar (c : Char) : List Char :=
  if c = '"' then ['\\', '"']
  else if c = '\\' then ['\\', '\\']
  else if c = ⟨8, by decide⟩ then ['\\', 'b']
  else if c = ⟨9, by decide⟩ then ['\\', 't']
  else if c = ⟨10, by decide⟩ then ['\\', 'n']
  else if c = ⟨12, by decide⟩ then ['\\', 'f']
  else if c = ⟨13, by decide⟩ then ['\\', 'r']
  else if c.toNat < 32 then
    ['\\', 'u', '0', '0', (Nat.digitChar (c.toNat / 16)), (Nat.digitChar (c.toNat % 16))]
  else [c]

/-- `JSON.stringify` of a string value. -/
def jsonStr (s : String) : String :=
  ⟨'"' :: (s.data.flatMap jsonEscapeChar) ++ ['"']⟩

/-- Least `k` with `d ∣ 10 ^ k`, when one exists below the search bound
(it does whenever `d = 2^a * 5^b`, the only denominators reachable from
binary floating point values). -/
def decExponent (d : ℕ) : Option ℕ :=
  (List.range (d + 1)).find? (fun k => 10 ^ k % d = 0)

/-- Decimal digits of `n` left-padded with zeros to width `k`. -/
def padDigits (n k : ℕ) : String :=
  let s := toString n
  ⟨List.replicate (k - s.length) '0' ++ s.data⟩

/-- JavaScript number-to-string conversion, on the exact rational model:
integers print without a decimal point, other representable values print
as their (shortest) decimal expansion. -/
def numToStr (q : ℚ) : String :=
  let sign : String := if q < 0 then "-" else ""
  let n := q.num.natAbs
  let d := q.den
  if d = 1 then sign ++ toString n
  else
    match decExponent d with
    | some k =>
        let m := n * (10 ^ k / d)
        sign ++ toString (m / 10 ^ k) ++ "." ++ padDigits (m % 10 ^ k) k
    | none => sign ++ toString n ++ "/" ++ toString d

/-- `JSON.stringify` of a quality object `{score, status}`. -/
def serializeQuality (q : Quality) : String :=
  "\x7b\"score\":" ++ numToStr q.score ++ ",\"status\":" ++ jsonStr q.status ++ "\x7d"

/-- `JSON.stringify` of one `usedBatches` element. -/
def serializeUsedBatch (b : UsedBatch) : String :=
  "\x7b\"herbID\":" ++ jsonStr b.herbID ++ ",\"unitsUsed\":" ++ numToStr b.unitsUsed
    ++ ",\"unitType\":" ++ jsonStr b.unitType ++ "\x7d"

/-- `JSON.stringify` of the `usedBatches` array. -/
def serializeUsedBatches (l : List UsedBatch) : String :=
  "[" ++ String.intercalate "," (l.map serializeUsedBatch) ++ "]"

/-- `JSON.stringify(this.data)` for each record payload, following the
object-literal key insertion order of `script.js`.  The `fraudAlert`
record's `message` field is the template string built from the claimed
and measured quantities. -/
def serializeData : RecordData → String
  | .genesis => "\"Genesis Block\""
  | .register collectorID herbID name location quantity unitType quality
      timestamp status =>
      "\x7b\"type\":\"registerHerb\",\"collectorID\":" ++ jsonStr collectorID
        ++ ",\"herbID\":" ++ jsonStr herbID
        ++ ",\"name\":" ++ jsonStr name
        ++ ",\"location\":" ++ jsonStr location
        ++ ",\"quantity\":" ++ numToStr quantity
        ++ ",\"unitType\":" ++ jsonStr unitType
        ++ ",\"quality\":" ++ serializeQuality quality
        ++ ",\"timestamp\":" ++ toString timestamp
        ++ ",\"status\":" ++ jsonStr status ++ "\x7d"
  | .verifyReceipt supplierID herbID verifiedQuantity timestamp =>
      "\x7b\"type\":\"verifyReceipt\",\"supplierID\":" ++ jsonStr supplierID
        ++ ",\"herbID\":" ++ jsonStr herbID
        ++ ",\"verifiedQuantity\":" ++ numToStr verifiedQuantity
        ++ ",\"timestamp\":" ++ toString timestamp ++ "\x7d"
  | .fraudAlert herbID claimedQuantity measuredQuantity timestamp =>
      "\x7b\"type\":\"fraudAlert\",\"herbID\":" ++ jsonStr herbID
        ++ ",\"claimedQuantity\":" ++ numToStr claimedQuantity
        ++ ",\"measuredQuantity\":" ++ numToStr measuredQuantity
        ++ ",\"timestamp\":" ++ toString timestamp
        ++ ",\"message\":" ++ jsonStr ("Discrepancy found! Claimed: "
              ++ numToStr claimedQuantity ++ ", Measured: "
              ++ numToStr measuredQuantity ++ ".") ++ "\x7d"
  | .transfer fromID toID herbID weight unitType location supplierQuality
      timestamp =>
      "\x7b\"type\":\"transferHerb\",\"fromID\":" ++ jsonStr fromID
        ++ ",\"toID\":" ++ jsonStr toID
        ++ ",\"herbID\":" ++ jsonStr herbID
        ++ ",\"weight\":" ++ numToStr weight
        ++ ",\"unitType\":" ++ jsonStr unitType
        ++ ",\"location\":" ++ jsonStr location
        ++ ",\"supplierQuality\":" ++ serializeQuality supplierQuality
        ++ ",\"timestamp\":" ++ toString timestamp ++ "\x7d"
  | .useHerb manufacturerID batchID location usedBatches finalWeight finalUnit
      manufacturerQuality timestamp =>
      "\x7b\"type\":\"useHerb\",\"manufacturerID\":" ++ jsonStr manufacturerID
        ++ ",\"batchID\":" ++ jsonStr batchID
        ++ ",\"location\":" ++ jsonStr location
        ++ ",\"usedBatches\":" ++ serializeUsedBatches usedBatches
        ++ ",\"finalWeight\":" ++ numToStr finalWeight
        ++ ",\"finalUnit\":" ++ jsonStr finalUnit
        ++ ",\"manufacturerQuality\":" ++ serializeQuality manufacturerQuality
        ++ ",\"timestamp\":" ++ toString timestamp ++ "\x7d"

/-! ## The content fingerprint

`calculateHash` is
`btoa(unescape(encodeURIComponent(previousHash + timestamp +
JSON.stringify(data)))).substr(0, 32)`: UTF-8 encode the concatenation,
base64 it, keep the first 32 characters. -/

/-- UTF-8 encoding of one character, as byte values
(`unescape(encodeURIComponent(...))` turns the string into its UTF-8
bytes before `btoa`). -/
def utf8EncodeCharNat (c : Char) : List ℕ :=
  let n := c.toNat
  if n < 128 then [n]
  else if n < 2048 then [192 + n / 64, 128 + n % 64]
  else if n < 65536 then [224 + n / 4096, 128 + n / 64 % 64, 128 + n % 64]
  else [240 + n / 262144, 128 + n / 4096 % 64, 128 + n / 64 % 64, 128 + n % 64]

/-- UTF-8 bytes of a string. -/
def utf8Bytes (s : String) : List ℕ :=
  s.data.flatMap utf8EncodeCharNat

/-- The base64 alphabet. -/
def b64Alphabet : List Char :=
  ['A','B','C','D','E','F','G','H','I','J','K','L','M','N','O','P','Q','R',
   'S','T','U','V','W','X','Y','Z','a','b','c','d','e','f','g','h','i','j',
   'k','l','m','n','o','p','q','r','s','t','u','v','w','x','y','z','0','1',
   '2','3','4','5','6','7','8','9','+','/']

/-- Character of the base64 alphabet at index `i` (always called with
`i < 64`). -/
def b64Char (i : ℕ) : Char := b64Alphabet.getD i 'A'

/-- `btoa`: base64 encoding of a byte list, with `=` padding. -/
def b64Encode : List ℕ → List Char
  | a :: b :: c :: t =>
      let n := a * 65536 + b * 256 + c
      b64Char (n / 262144 % 64) :: b64Char (n / 4096 % 64) ::
        b64Char (n / 64 % 64) :: b64Char (n % 64) :: b64Encode t
  | [a, b] =>
      let n := a * 65536 + b * 256
      [b64Char (n / 262144 % 64), b64Char (n / 4096 % 64),
       b64Char (n / 64 % 64), '=']
  | [a] =>
      let n := a * 65536
      [b64Char (n / 262144 % 64), b64Char (n / 4096 % 64), '=', '=']
  | [] => []

/-- `Block.calculateHash` applied to the concatenated input string:
`btoa(unescape(encodeURIComponent(str))).substr(0, 32)`. -/
def calculateHash (str : String) : String :=
  ⟨(b64Encode (utf8Bytes str)).take 32⟩

/-! ## Blocks and ledger state -/

/-- A chain block.  Non-genesis blocks carry `Date.now()` as timestamp;
string concatenation inside `calculateHash` stringifies it, so the
timestamp is stored here in string form. -/
structure Block where
  timestamp : String
  data : RecordData
  previousHash : String
  hash : String
  deriving DecidableEq, Repr

/-- Build a block whose `hash` field is `calculateHash` of
`previousHash + timestamp + JSON.stringify(data)` (the value every block
holds after `addBlock` has set its `previousHash` and recomputed its
`hash`). -/
def mkBlock (timestamp : String) (data : RecordData) (previousHash : String) :
    Block :=
  { timestamp := timestamp, data := data, previousHash := previousHash,
    hash := calculateHash (previousHash ++ timestamp ++ serializeData data) }

/-- `createGenesisBlock()`: `new Block('2025-01-01', 'Genesis Block', '0')`. -/
def createGenesisBlock : Block :=
  mkBlock "2025-01-01" .genesis "0"

/-- One inventory entry `{name, quantity, unitType}`. -/
structure Entry where
  name : String
  quantity : ℚ
  unitType : String
  deriving DecidableEq, Repr

/-- An item master record held in `this.metadata`. -/
structure MasterHerb where
  name : String
  location : String
  quality : Quality
  history : List RecordData
  status : String
  deriving DecidableEq, Repr

/-- The `Blockchain` instance state: the chain, the item master records,
the per-actor inventories and the reputation scores. -/
structure BState where
  chain : List Block
  metadata : List (String × MasterHerb)
  inventories : List (String × List (String × Entry))
  reputationScores : List (String × ℚ)
  deriving DecidableEq, Repr

/-- `getInitialReputation()`. -/
def getInitialReputation : List (String × ℚ) :=
  [("COLLECTOR-001", 100), ("SUPPLIER-001", 100), ("MANU-001", 100)]

/-- The freshly constructed `Blockchain` (no saved data in
`localStorage`). -/
def initialState : BState :=
  { chain := [createGenesisBlock]
    metadata := []
    inventories := [("SUPPLIER-001", []), ("MANU-001", [])]
    reputationScores := getInitialReputation }

/-- `getLatestBlock()`, i.e. `chain[chain.length - 1]`.  The chain is
never empty (it always starts from the genesis block and only grows), so
the default is never used. -/
def getLatestBlock (chain : List Block) : Block :=
  chain.getLastD createGenesisBlock

/-- `addBlock(new Block(ts, data))`: set the new block's `previousHash`
to the tail's hash, recompute its hash, push it. -/
def addBlock (s : BState) (timestamp : String) (data : RecordData) : BState :=
  { s with chain := s.chain ++ [mkBlock timestamp data (getLatestBlock s.chain).hash] }

/-- The reputation lookup `(this.reputationScores[id] || 100)`: a missing
entry — and, by JS falsiness, a stored `0` — reads as `100`. -/
def jsRepGet (rep : List (String × ℚ)) (id : String) : ℚ :=
  match mapGet rep id with
  | none => 100
  | some v => if v = 0 then 100 else v

/-- The in-place mutation `registrationBlockData.status = st` performed
by `verifyHerbReceipt`: the registration record of `herbID` (shared
between the chain block and `masterHerb.history[0]`) gets its `status`
field overwritten; every other record is untouched. -/
def setRegisterStatus (herbID st : String) : RecordData → RecordData
  | .register c h n l q u qual ts st0 =>
      if h = herbID then .register c h n l q u qual ts st
      else .register c h n l q u qual ts st0
  | d => d

/-- Lift `setRegisterStatus` to a chain block (the block's `previousHash`,
`timestamp` and stored `hash` are unchanged — only the aliased `data`
object mutates). -/
def updBlockStatus (herbID st : String) (b : Block) : Block :=
  { b with data := setRegisterStatus herbID st b.data }

/-- `masterHerb.history.push(data)`. -/
def pushHistory (s : BState) (herbID : String) (data : RecordData) : BState :=
  match mapGet s.metadata herbID with
  | some mh =>
      { s with metadata := (mapSet s.metadata herbID
          { mh with history := mh.history ++ [data] }) }
  | none => s

/-- Write the entry for `herbID` in `actor`'s inventory (the actor's
inventory object exists at every call site). -/
def setInvEntry (s : BState) (actor herbID : String) (e : Entry) : BState :=
  match mapGet s.inventories actor with
  | some inv =>
      { s with inventories := mapSet s.inventories actor (mapSet inv herbID e) }
  | none => s

/-! ## Results -/

/-- A JavaScript runtime exception escaping an engine operation. -/
inductive JsError where
  | typeError
  deriving DecidableEq, Repr

/-- One element pushed onto `invalidHerbs` by `useHerbInMedicine`: either
the `(Available: …)` message for an insufficient batch or the
`(Unit Mismatch: Expected …)` message. -/
inductive InvalidHerb where
  | insufficient (herbID : String) (available : ℚ) (unitType : String)
  | unitMismatch (herbID : String) (expected : String)
  deriving DecidableEq, Repr

/-- The distinct failure messages returned by the four contract
operations (one constructor per `return { success: false, … }` site). -/
inductive ErrorKind where
  | duplicateItem
  | notAwaitingVerification
  | fraudDetected
  | itemNotFound
  | itemNotTransferable
  | unitMismatch
  | insufficientQuantity (available requested : ℚ)
  | qualityBelowThreshold (score : ℚ)
  | manufacturerNotFound
  | insufficientOrMismatchedBatches (invalid : List InvalidHerb)
  deriving DecidableEq, Repr

/-- The distinct success messages (one constructor per
`return { success: true, … }` site). -/
inductive SuccessMsg where
  | registered (herbID : String)
  | verified (herbID : String) (quantity : ℚ)
  | transferred (weight : ℚ) (unitType name : String)
  | produced (batchID : String)
  deriving DecidableEq, Repr

/-- The discriminated `{success, message}` result object. -/
inductive ContractResult where
  | success (msg : SuccessMsg)
  | failure (err : ErrorKind)
  deriving DecidableEq, Repr

/-! ## The four contract operations -/

/-- `registerHerb(collectorID, herbID, name, location, quantity,
unitType, quality)`, with `now = Date.now()`. -/
def registerHerb (s : BState) (collectorID herbID name location : String)
    (quantity : ℚ) (unitType : String) (quality : Quality) (now : ℕ) :
    BState × Except JsError ContractResult :=
  if (mapGet s.metadata herbID).isSome then
    (s, .ok (.failure .duplicateItem))
  else
    let data := RecordData.register collectorID herbID name location quantity
      unitType quality now "pending_verification"
    let s1 := addBlock s (toString now) data
    let master : MasterHerb :=
      { name := name
        location := location
        quality := quality
        history := [data]
        status := "pending_verification" }
    let s2 := { s1 with metadata := (mapSet s1.metadata herbID master) }
    (s2, .ok (.success (.registered herbID)))

/-- `verifyHerbReceipt(supplierID, herbID, measuredQuantity)`, with
`now = Date.now()`.  On the success path the inventory write
`this.inventories[supplierID][herbID] = …` throws a `TypeError` when
`supplierID` has no inventory object — after the status flip, the
reputation reward and the chain append have already happened. -/
def verifyHerbReceipt (s : BState) (supplierID herbID : String)
    (measuredQuantity : ℚ) (now : ℕ) :
    BState × Except JsError ContractResult :=
  match mapGet s.metadata herbID with
  | none => (s, .ok (.failure .notAwaitingVerification))
  | some mh =>
    if mh.status ≠ "pending_verification" then
      (s, .ok (.failure .notAwaitingVerification))
    else
      match mh.history.head? with
      | some (.register collectorID _ _ _ claimed regUnit _ _ _) =>
        let tolerance := claimed * (2 / 100)
        let difference := |claimed - measuredQuantity|
        if difference > tolerance then
          let mh1 : MasterHerb :=
            { mh with
              status := "disputed"
              history := mh.history.map (setRegisterStatus herbID "disputed") }
          let s1 : BState :=
            { s with
              metadata := mapSet s.metadata herbID mh1
              chain := s.chain.map (updBlockStatus herbID "disputed")
              reputationScores := mapSet s.reputationScores collectorID
                (jsRepGet s.reputationScores collectorID - 10) }
          let data := RecordData.fraudAlert herbID claimed measuredQuantity now
          let s2 := addBlock s1 (toString now) data
          let s3 := pushHistory s2 herbID data
          (s3, .ok (.failure .fraudDetected))
        else
          let mh1 : MasterHerb :=
            { mh with
              status := "verified"
              history := mh.history.map (setRegisterStatus herbID "verified") }
          let s1 : BState :=
            { s with
              metadata := mapSet s.metadata herbID mh1
              chain := s.chain.map (updBlockStatus herbID "verified")
              reputationScores := mapSet s.reputationScores collectorID
                (jsRepGet s.reputationScores collectorID + 1) }
          let data := RecordData.verifyReceipt supplierID herbID measuredQuantity now
          let s2 := addBlock s1 (toString now) data
          let s3 := pushHistory s2 herbID data
          match mapGet s3.inventories supplierID with
          | none => (s3, .error .typeError)
          | some inv =>
            let credit : Entry :=
              { name := mh.name
                quantity := measuredQuantity
                unitType := regUnit }
            let s4 := { s3 with inventories := (mapSet s3.inventories supplierID
                (mapSet inv herbID credit)) }
            (s4, .ok (.success (.verified herbID measuredQuantity)))
      -- history[0] is the registration record in every reachable state;
      -- the fallback mirrors the TypeError JS would raise on a missing record.
      | _ => (s, .error .typeError)

/-- The debit `supplierHerb.quantity -= transferWeight` of `transferHerb`. -/
def transferDebit (s : BState) (fromID herbID : String) (supplierHerb : Entry)
    (weight : ℚ) : BState :=
  setInvEntry s fromID herbID
    { supplierHerb with quantity := supplierHerb.quantity - weight }

/-- The `if (!this.inventories[toID]) this.inventories[toID] = {}` step of
`transferHerb`. -/
def transferEnsureActor (s : BState) (toID : String) : BState :=
  if (mapGet s.inventories toID).isSome then s
  else { s with inventories := mapSet s.inventories toID [] }

/-- The `if (!this.inventories[toID][herbID]) … = {name, quantity: 0,
unitType}` step of `transferHerb`. -/
def transferEnsureEntry (s : BState) (toID herbID masterName unitType : String) :
    BState :=
  if ((mapGet s.inventories toID).bind (fun inv => mapGet inv herbID)).isSome
    then s
  else setInvEntry s toID herbID
    { name := masterName, quantity := 0, unitType := unitType }

/-- The credit `this.inventories[toID][herbID].quantity += transferWeight`
of `transferHerb` (the entry exists after `transferEnsureEntry`). -/
def transferCredit (s : BState) (toID herbID : String) (weight : ℚ) : BState :=
  match (mapGet s.inventories toID).bind (fun inv => mapGet inv herbID) with
  | some e => setInvEntry s toID herbID { e with quantity := e.quantity + weight }
  | none => s

/-- `transferHerb(fromID, toID, herbID, weight, location, unitType,
supplierQuality)`, with `now = Date.now()`. -/
def transferHerb (s : BState) (fromID toID herbID : String) (weight : ℚ)
    (location unitType : String) (supplierQuality : Quality) (now : ℕ) :
    BState × Except JsError ContractResult :=
  match (mapGet s.inventories fromID).bind (fun inv => mapGet inv herbID) with
  | none => (s, .ok (.failure .itemNotFound))
  | some supplierHerb =>
    match mapGet s.metadata herbID with
    -- JS reads `masterHerb.status` of `undefined` when the item is in an
    -- inventory but not in the registry (unreachable from the initial state).
    | none => (s, .error .typeError)
    | some masterHerb =>
      if masterHerb.status ≠ "verified" then
        (s, .ok (.failure .itemNotTransferable))
      else if supplierHerb.unitType ≠ unitType then
        (s, .ok (.failure .unitMismatch))
      else if weight > supplierHerb.quantity then
        (s, .ok (.failure (.insufficientQuantity supplierHerb.quantity weight)))
      else
        let s1 := transferDebit s fromID herbID supplierHerb weight
        let s2 := transferEnsureActor s1 toID
        let s3 := transferEnsureEntry s2 toID herbID masterHerb.name
          supplierHerb.unitType
        let s4 := transferCredit s3 toID herbID weight
        let data := RecordData.transfer fromID toID herbID weight unitType
          location supplierQuality now
        let s5 := addBlock s4 (toString now) data
        let s6 := pushHistory s5 herbID data
        (s6, .ok (.success (.transferred weight unitType masterHerb.name)))

/-- The validation loop of `useHerbInMedicine`.  A batch missing from the
manufacturer's inventory makes the push of
`` `${id} (Available: …) ${herbInManuInventory.unitType}` `` read
`.unitType` of `undefined` — a `TypeError`, not an aggregated failure.
Present batches with insufficient quantity, then with a mismatched unit,
are collected in iteration order. -/
def validateBatches (manuInv : List (String × Entry)) :
    List UsedBatch → Except JsError (List InvalidHerb)
  | [] => .ok []
  | b :: rest =>
    match mapGet manuInv b.herbID with
    | none => .error .typeError
    | some e =>
      if e.quantity < b.unitsUsed then
        (validateBatches manuInv rest).map
          (fun l => .insufficient b.herbID e.quantity e.unitType :: l)
      else if e.unitType ≠ b.unitType then
        (validateBatches manuInv rest).map
          (fun l => .unitMismatch b.herbID e.unitType :: l)
      else validateBatches manuInv rest

/-- The `usedBatches.forEach` mutation loop of `useHerbInMedicine`: for
each batch present in the manufacturer's inventory, debit `unitsUsed` and
push the `useHerb` record onto that item's history.  The `Bool` is true
when the loop throws (reading `history` of a missing master record). -/
def consumeBatches (manufacturerID : String) (data : RecordData) :
    BState → List UsedBatch → BState × Bool
  | s, [] => (s, false)
  | s, b :: rest =>
    match mapGet s.inventories manufacturerID with
    | none => (s, true)  -- JS would throw; unreachable at call sites
    | some inv =>
      match mapGet inv b.herbID with
      | none => consumeBatches manufacturerID data s rest
      | some e =>
        let s1 := setInvEntry s manufacturerID b.herbID
          { e with quantity := e.quantity - b.unitsUsed }
        match mapGet s1.metadata b.herbID with
        | none => (s1, true)  -- `this.metadata[id].history.push` throws
        | some _ => consumeBatches manufacturerID data
            (pushHistory s1 b.herbID data) rest

/-- `useHerbInMedicine(batchID, manufacturerID, location, usedBatches,
finalWeight, finalUnit, manufacturerQuality)`, with `now = Date.now()`. -/
def useHerbInMedicine (s : BState) (batchID manufacturerID location : String)
    (usedBatches : List UsedBatch) (finalWeight : ℚ) (finalUnit : String)
    (manufacturerQuality : Quality) (now : ℕ) :
    BState × Except JsError ContractResult :=
  if manufacturerQuality.score < 60 then
    (s, .ok (.failure (.qualityBelowThreshold manufacturerQuality.score)))
  else
    match mapGet s.inventories manufacturerID with
    | none => (s, .ok (.failure .manufacturerNotFound))
    | some manuInv =>
      match validateBatches manuInv usedBatches with
      | .error e => (s, .error e)
      | .ok invalid =>
        if invalid ≠ [] then
          (s, .ok (.failure (.insufficientOrMismatchedBatches invalid)))
        else
          let data := RecordData.useHerb manufacturerID batchID location
            usedBatches finalWeight finalUnit manufacturerQuality now
          let s1 := addBlock s (toString now) data
          match consumeBatches manufacturerID data s1 usedBatches with
          | (s2, true) => (s2, .error .typeError)
          | (s2, false) => (s2, .ok (.success (.produced batchID)))

/-! ## Operation sequences and reachability -/

/-- One engine invocation with all of its inputs (including the
`Date.now()` reading). -/
inductive Op where
  | register (collectorID herbID name location : String) (quantity : ℚ)
      (unitType : String) (quality : Quality) (now : ℕ)
  | verify (supplierID herbID : String) (measuredQuantity : ℚ) (now : ℕ)
  | transfer (fromID toID herbID : String) (weight : ℚ)
      (location unitType : String) (supplierQuality : Quality) (now : ℕ)
  | use (batchID manufacturerID location : String)
      (usedBatches : List UsedBatch) (finalWeight : ℚ) (finalUnit : String)
      (manufacturerQuality : Quality) (now : ℕ)
  deriving Repr

/-- The state after one engine invocation (if the call throws, the state
reached at the throw point persists in the `Blockchain` instance). -/
def applyOp (s : BState) : Op → BState
  | .register c h n l q u qual now => (registerHerb s c h n l q u qual now).1
  | .verify v h m now => (verifyHerbReceipt s v h m now).1
  | .transfer f t h w loc u qual now => (transferHerb s f t h w loc u qual now).1
  | .use b m loc ub fw fu qual now => (useHerbInMedicine s b m loc ub fw fu qual now).1

/-- The state after a sequence of engine invocations from a given state;
the reachable states are `applyOps initialState ops`. -/
def applyOps (s : BState) (ops : List Op) : BState :=
  ops.foldl applyOp s

/-! ## The scan log -/

/-- Modelled from the spec: the Scan Log component of §4.3
(`recordScan(unitID) → {firstSeen, firstScanTimestamp}`) is described in
the spec but absent from `src/script.js`.  If `unitID` is already
present, return `firstSeen = false` with the stored timestamp and mutate
nothing; otherwise insert `unitID → now` and return `firstSeen = true`. -/
def recordScan (log : List (String × ℕ)) (unitID : String) (now : ℕ) :
    (List (String × ℕ)) × Bool × ℕ :=
  match mapGet log unitID with
  | some ts => (log, false, ts)
  | none => (mapSet log unitID now, true, now)

/-! ## Derived views and invariant predicates -/

/-- The status of an item's master record. -/
def statusOf (s : BState) (herbID : String) : Option String :=
  (mapGet s.metadata herbID).map MasterHerb.status

/-- The inventory entry of `actor` for `herbID`. -/
def invEntry (s : BState) (actor herbID : String) : Option Entry :=
  (mapGet s.inventories actor).bind (fun inv => mapGet inv herbID)

/-- The payload of the newest chain block. -/
def lastRecord (s : BState) : Option RecordData :=
  s.chain.getLast?.map Block.data

/-- Every inventory entry of every actor has a nonnegative quantity. -/
def invOK (s : BState) : Prop :=
  ∀ p ∈ s.inventories, ∀ q ∈ p.2, 0 ≤ q.2.quantity

instance (s : BState) : Decidable (invOK s) := by
  unfold invOK; infer_instance

/-- Inputs under which the engine is claimed to preserve inventory
nonnegativity: transfers of nonnegative weight, and consumption requests
without a repeated herb id. -/
def wfOp : Op → Prop
  | .transfer _ _ _ w _ _ _ _ => 0 ≤ w
  | .use _ _ _ ub _ _ _ _ => (ub.map UsedBatch.herbID).Nodup
  | _ => True

instance (op : Op) : Decidable (wfOp op) := by
  unfold wfOp; cases op <;> infer_instance

/-- The chain-linkage property of the claim, for the blocks after the
genesis block: each block's `previousHash` is the previous block's
`hash`, and each stored `hash` is reproduced by recomputing
`calculateHash` from `(previousHash, timestamp, serialized record)`. -/
def linked (previousHash : String) : List Block → Prop
  | [] => True
  | b :: t => b.previousHash = previousHash
      ∧ b.hash = calculateHash (b.previousHash ++ b.timestamp ++ serializeData b.data)
      ∧ linked b.hash t

/-- The chain-integrity property: the chain starts with a genesis block
whose `previousHash` is `"0"`, and from index 1 on every block is linked
to its predecessor and carries a recomputable fingerprint. -/
def chainOK : List Block → Prop
  | [] => False
  | g :: rest => g.previousHash = "0"
      ∧ g.hash = calculateHash (g.previousHash ++ g.timestamp ++ serializeData g.data)
      ∧ linked g.hash rest

/-- The hash of the chain's last block, seen from a starting hash (the
value `getLatestBlock` returns once the genesis block is fixed). -/
def lastHash (previousHash : String) : List Block → String
  | [] => previousHash
  | b :: t => lastHash b.hash t

/-- Strengthened chain invariant carried through the reachability
induction: the chain starts with the (concrete) genesis block and the
rest is linked. -/
def chainInvL : List Block → Prop
  | [] => False
  | g :: rest => g = createGenesisBlock ∧ linked g.hash rest

/-- The strengthened chain invariant of a ledger state. -/
def chainInv (s : BState) : Prop :=
  chainInvL s.chain

/-! ## Concrete scenarios used by the claims -/

/-- A quality snapshot above every threshold. -/
def qGood : Quality := ⟨80, "Excellent"⟩

/-- Register item `H1` (claimed quantity 10 Kg) with the collector. -/
def regState : BState :=
  (registerHerb initialState "COLLECTOR-001" "H1" "Tulsi" "Farm A" 10 "Kg" qGood 1).1

/-- Then verify `H1` with measured quantity 10 (within tolerance). -/
def verState : BState :=
  (verifyHerbReceipt regState "SUPPLIER-001" "H1" 10 2).1

/-- Then transfer 4 Kg of `H1` from the supplier to the manufacturer. -/
def trState : BState :=
  (transferHerb verState "SUPPLIER-001" "MANU-001" "H1" 4 "Depot B" "Kg" qGood 3).1

/-- Register item `H1` with claimed quantity 100 (for the tolerance
boundary checks). -/
def regState100 : BState :=
  (registerHerb initialState "COLLECTOR-001" "H1" "Tulsi" "Farm A" 100 "Kg" qGood 1).1

/-- Register item `H2` (claimed 10) and verify it with measured 5:
the 50% discrepancy exceeds the 2% tolerance, so `H2` becomes disputed. -/
def dispState : BState :=
  (verifyHerbReceipt
    (registerHerb initialState "COLLECTOR-001" "H2" "Neem" "Farm A" 10 "Kg" qGood 1).1
    "SUPPLIER-001" "H2" 5 2).1

/-- A transfer of weight −5 out of the verified supplier stock of 10. -/
def negTransfer : BState × Except JsError ContractResult :=
  transferHerb verState "SUPPLIER-001" "MANU-001" "H1" (-5) "Depot B" "Kg" qGood 3

/-- A consumption naming the same batch twice, each time within the
available quantity. -/
def dupConsume : BState × Except JsError ContractResult :=
  useHerbInMedicine trState "B2" "MANU-001" "Plant C"
    [⟨"H1", 4, "Kg"⟩, ⟨"H1", 4, "Kg"⟩] 8 "Units" ⟨65, "ok"⟩ 5

/-- The well-formed end-to-end scenario of the spec: register, verify,
transfer 4 Kg, consume 4 Kg. -/
def demoOps : List Op :=
  [.register "COLLECTOR-001" "H1" "Tulsi" "Farm A" 10 "Kg" qGood 1,
   .verify "SUPPLIER-001" "H1" 10 2,
   .transfer "SUPPLIER-001" "MANU-001" "H1" 4 "Depot B" "Kg" qGood 3,
   .use "B1" "MANU-001" "Plant C" [⟨"H1", 4, "Kg"⟩] 10 "Units" ⟨65, "ok"⟩ 4]

/-! ## Association-map lemmas -/

theorem mapGet_nil {α : Type} (k : String) : mapGet ([] : List (String × α)) k = none := rfl

theorem mapGet_cons {α : Type} (p : String × α) (m : List (String × α)) (k : String) :
    mapGet (p :: m) k = if p.1 = k then some p.2 else mapGet m k := rfl

theorem mapGet_replace {α : Type} (m : List (String × α)) (k k' : String) (v : α) :
    mapGet (m.map (fun p => if p.1 = k then (k, v) else p)) k' =
      if k' = k then (mapGet m k).map (fun _ => v) else mapGet m k' := by
  induction m with
  | nil => by_cases hk : k' = k <;> simp [mapGet, hk]
  | cons p m ih =>
    simp only [List.map_cons]
    by_cases hp : p.1 = k
    · by_cases hk : k' = k
      · subst hk
        simp [mapGet_cons, hp, ih]
      · have hpk : ¬ p.1 = k' := fun h => hk (by rw [← h, hp])
        simp [mapGet_cons, hp, hk, hpk, ih, Ne.symm hk]
    · by_cases hpk : p.1 = k'
      · have hk : ¬ k' = k := fun h => hp (by rw [hpk, h])
        simp [mapGet_cons, hp, hpk, hk]
      · simp [mapGet_cons, hp, hpk, ih]

theorem mapGet_append_single {α : Type} (m : List (String × α)) (k k' : String) (v : α) :
    mapGet (m ++ [(k, v)]) k' =
      match mapGet m k' with
      | some w => some w
      | none => if k = k' then some v else none := by
  induction m with
  | nil => simp [mapGet]
  | cons p m ih =>
    rw [List.cons_append, mapGet_cons, mapGet_cons]
    by_cases hp : p.1 = k' <;> simp [hp, ih]

theorem mapGet_mapSet {α : Type} (m : List (String × α)) (k k' : String) (v : α) :
    mapGet (mapSet m k v) k' = if k' = k then some v else mapGet m k' := by
  unfold mapSet
  by_cases hs : (mapGet m k).isSome = true
  · rw [if_pos hs, mapGet_replace]
    rcases Option.isSome_iff_exists.mp hs with ⟨w, hw⟩
    by_cases hk : k' = k <;> simp [hk, hw]
  · rw [if_neg hs, mapGet_append_single]
    have hn : mapGet m k = none := Option.not_isSome_iff_eq_none.mp hs
    by_cases hk : k' = k
    · subst hk
      simp [hn]
    · rcases h : mapGet m k' with _ | w <;> simp [hk, Ne.symm hk]

theorem mapGet_mem {α : Type} {m : List (String × α)} {k : String} {v : α}
    (h : mapGet m k = some v) : (k, v) ∈ m := by
  induction m with
  | nil => simp [mapGet] at h
  | cons p m ih =>
    rw [mapGet_cons] at h
    by_cases hp : p.1 = k
    · rw [if_pos hp] at h
      exact List.mem_cons.mpr (Or.inl (by
        rw [Prod.ext_iff]
        exact ⟨hp.symm, (Option.some_inj.mp h).symm⟩))
    · rw [if_neg hp] at h
      exact List.mem_cons.mpr (Or.inr (ih h))

theorem mem_mapSet {α : Type} {m : List (String × α)} {k : String} {v : α}
    {p : String × α} (h : p ∈ mapSet m k v) : p = (k, v) ∨ p ∈ m := by
  unfold mapSet at h
  split at h
  · rcases List.mem_map.mp h with ⟨q, hq, hfq⟩
    by_cases hk : q.1 = k
    · simp only [if_pos hk] at hfq
      exact Or.inl hfq.symm
    · simp only [if_neg hk] at hfq
      exact Or.inr (hfq ▸ hq)
  · rcases List.mem_append.mp h with hm | hm
    · exact Or.inr hm
    · exact Or.inl (by simpa using hm)

/-! ## Component-preservation lemmas for the state helpers -/

theorem addBlock_inventories (s : BState) (ts : String) (d : RecordData) :
    (addBlock s ts d).inventories = s.inventories := rfl

theorem addBlock_metadata (s : BState) (ts : String) (d : RecordData) :
    (addBlock s ts d).metadata = s.metadata := rfl

theorem addBlock_reputation (s : BState) (ts : String) (d : RecordData) :
    (addBlock s ts d).reputationScores = s.reputationScores := rfl

theorem addBlock_chain (s : BState) (ts : String) (d : RecordData) :
    (addBlock s ts d).chain = s.chain ++ [mkBlock ts d (getLatestBlock s.chain).hash] := rfl

theorem pushHistory_inventories (s : BState) (h : String) (d : RecordData) :
    (pushHistory s h d).inventories = s.inventories := by
  unfold pushHistory
  split <;> rfl

theorem pushHistory_chain (s : BState) (h : String) (d : RecordData) :
    (pushHistory s h d).chain = s.chain := by
  unfold pushHistory
  split <;> rfl

theorem pushHistory_reputation (s : BState) (h : String) (d : RecordData) :
    (pushHistory s h d).reputationScores = s.reputationScores := by
  unfold pushHistory
  split <;> rfl

theorem setInvEntry_chain (s : BState) (a h : String) (e : Entry) :
    (setInvEntry s a h e).chain = s.chain := by
  unfold setInvEntry
  split <;> rfl

theorem setInvEntry_metadata (s : BState) (a h : String) (e : Entry) :
    (setInvEntry s a h e).metadata = s.metadata := by
  unfold setInvEntry
  split <;> rfl

theorem setInvEntry_reputation (s : BState) (a h : String) (e : Entry) :
    (setInvEntry s a h e).reputationScores = s.reputationScores := by
  unfold setInvEntry
  split <;> rfl

theorem consumeBatches_chain (mid : String) (d : RecordData) :
    ∀ (l : List UsedBatch) (s : BState),
      (consumeBatches mid d s l).1.chain = s.chain := by
  intro l
  induction l with
  | nil => intro s; rfl
  | cons b rest ih =>
    intro s
    simp only [consumeBatches]
    split
    · rfl
    · split
      · exact ih s
      · split
        · exact setInvEntry_chain ..
        · rw [ih, pushHistory_chain, setInvEntry_chain]

/-! ## Arithmetic of the 2% tolerance -/

theorem measured_nonneg (c m : ℚ) (h : ¬ |c - m| > c * (2 / 100)) : 0 ≤ m := by
  have h1 : |c - m| ≤ c * (2 / 100) := not_lt.mp h
  have h0 : (0 : ℚ) ≤ c * (2 / 100) := le_trans (abs_nonneg _) h1
  have hc : 0 ≤ c := by nlinarith
  rcases abs_le.mp h1 with ⟨_, h3⟩
  nlinarith

/-! ## Nonnegativity helpers -/

theorem invOK_lookup {s : BState} {a h : String} {inv : List (String × Entry)}
    {e : Entry} (hs : invOK s) (ha : mapGet s.inventories a = some inv)
    (he : mapGet inv h = some e) : 0 ≤ e.quantity :=
  hs (a, inv) (mapGet_mem ha) (h, e) (mapGet_mem he)

theorem invOK_of_inventories_eq {s s' : BState}
    (h : s'.inventories = s.inventories) (hs : invOK s) : invOK s' := by
  unfold invOK
  rw [h]
  exact hs

theorem entriesOK_mapSet {inv : List (String × Entry)} {h : String} {e : Entry}
    (hinv : ∀ q ∈ inv, 0 ≤ q.2.quantity) (he : 0 ≤ e.quantity) :
    ∀ q ∈ mapSet inv h e, 0 ≤ q.2.quantity := by
  intro q hq
  rcases mem_mapSet hq with hq1 | hq1
  · rw [hq1]
    exact he
  · exact hinv q hq1

theorem invOK_mapSet_inv {s : BState} {a : String} {inv' : List (String × Entry)}
    (hs : invOK s) (hinv : ∀ q ∈ inv', 0 ≤ q.2.quantity) :
    invOK { s with inventories := mapSet s.inventories a inv' } := by
  intro p hp
  rcases mem_mapSet hp with hp1 | hp1
  · rw [hp1]
    exact hinv
  · exact hs p hp1

theorem invOK_setInvEntry {s : BState} {a h : String} {e : Entry}
    (hs : invOK s) (he : 0 ≤ e.quantity) : invOK (setInvEntry s a h e) := by
  unfold setInvEntry
  split
  · rename_i inv hinv
    exact invOK_mapSet_inv hs
      (entriesOK_mapSet (fun q hq => hs _ (mapGet_mem hinv) q hq) he)
  · exact hs

theorem setInvEntry_inventories_of_some {s : BState} {a : String}
    {inv : List (String × Entry)} (ha : mapGet s.inventories a = some inv)
    (h : String) (e : Entry) :
    (setInvEntry s a h e).inventories = mapSet s.inventories a (mapSet inv h e) := by
  unfold setInvEntry
  rw [ha]

theorem validateBatches_ok_nil {inv : List (String × Entry)} :
    ∀ l, validateBatches inv l = .ok [] →
      ∀ b ∈ l, ∃ e, mapGet inv b.herbID = some e ∧ b.unitsUsed ≤ e.quantity := by
  intro l
  induction l with
  | nil => intro _ b hb; simp at hb
  | cons b rest ih =>
    intro h b' hb'
    simp only [validateBatches] at h
    split at h
    · exact absurd h (by simp)
    · rename_i e he
      split at h
      · rcases hr : validateBatches inv rest with err | l' <;> rw [hr] at h <;>
          simp [Except.map] at h
      · split at h
        · rcases hr : validateBatches inv rest with err | l' <;> rw [hr] at h <;>
            simp [Except.map] at h
        · rcases List.mem_cons.mp hb' with hb1 | hb1
          · subst hb1
            exact ⟨e, he, not_lt.mp (by assumption)⟩
          · exact ih h b' hb1

theorem invOK_consumeBatches (mid : String) (d : RecordData) :
    ∀ (l : List UsedBatch) (s : BState), invOK s →
      (∀ b ∈ l, ∀ inv e, mapGet s.inventories mid = some inv →
         mapGet inv b.herbID = some e → b.unitsUsed ≤ e.quantity) →
      (l.map UsedBatch.herbID).Nodup →
      invOK (consumeBatches mid d s l).1 := by
  intro l
  induction l with
  | nil => intro s hs _ _; exact hs
  | cons b rest ih =>
    intro s hs hbound hnodup
    rw [List.map_cons] at hnodup
    rcases List.nodup_cons.mp hnodup with ⟨hbnotin, hnodup'⟩
    simp only [consumeBatches]
    split
    · exact hs
    · rename_i inv hinv
      split
      · exact ih s hs (fun b' hb' => hbound b' (List.mem_cons_of_mem _ hb')) hnodup'
      · rename_i e he
        have hq : b.unitsUsed ≤ e.quantity := hbound b (List.mem_cons_self _ _) inv e hinv he
        have hs1 : invOK (setInvEntry s mid b.herbID
            { name := e.name, quantity := e.quantity - b.unitsUsed, unitType := e.unitType }) :=
          invOK_setInvEntry hs (by simpa using sub_nonneg.mpr hq)
        split
        · exact hs1
        · apply ih _ (invOK_of_inventories_eq (pushHistory_inventories ..) hs1)
          · intro b' hb' inv' e' hinv' he'
            rw [pushHistory_inventories,
              setInvEntry_inventories_of_some hinv, mapGet_mapSet, if_pos rfl] at hinv'
            have hinv'' : inv' = mapSet inv b.herbID
                { name := e.name, quantity := e.quantity - b.unitsUsed, unitType := e.unitType } :=
              (Option.some_inj.mp hinv').symm
            rw [hinv'', mapGet_mapSet] at he'
            have hne : ¬ b'.herbID = b.herbID := by
              intro hcon
              exact hbnotin (hcon ▸ List.mem_map_of_mem UsedBatch.herbID hb')
            rw [if_neg hne] at he'
            exact hbound b' (List.mem_cons_of_mem _ hb') inv e' hinv he'
          · exact hnodup'

theorem invOK_registerHerb (s : BState) (c h n l : String) (q : ℚ) (u : String)
    (qual : Quality) (now : ℕ) (hs : invOK s) :
    invOK (registerHerb s c h n l q u qual now).1 := by
  unfold registerHerb
  split
  · exact hs
  · exact invOK_of_inventories_eq rfl hs

theorem invOK_verifyHerbReceipt (s : BState) (v h : String) (m : ℚ) (now : ℕ)
    (hs : invOK s) : invOK (verifyHerbReceipt s v h m now).1 := by
  simp only [verifyHerbReceipt]
  split
  · exact hs
  · split
    · exact hs
    · split
      · split
        · exact invOK_of_inventories_eq
            (by rw [pushHistory_inventories, addBlock_inventories]) hs
        · rename_i htol
          split
          · exact invOK_of_inventories_eq
              (by rw [pushHistory_inventories, addBlock_inventories]) hs
          · rename_i inv hinv
            refine invOK_mapSet_inv ?_ (entriesOK_mapSet ?_
              (by simpa using measured_nonneg _ m htol))
            · exact invOK_of_inventories_eq
                (by rw [pushHistory_inventories, addBlock_inventories]) hs
            · exact fun q hq =>
                (invOK_of_inventories_eq
                  (by rw [pushHistory_inventories, addBlock_inventories]) hs)
                  _ (mapGet_mem hinv) q hq
      · exact hs

theorem invOK_transferDebit {s : BState} (fromID h : String) (e : Entry)
    (w : ℚ) (hs : invOK s) (hle : w ≤ e.quantity) :
    invOK (transferDebit s fromID h e w) :=
  invOK_setInvEntry hs (sub_nonneg.mpr hle)

theorem invOK_transferEnsureActor {s : BState} (toID : String) (hs : invOK s) :
    invOK (transferEnsureActor s toID) := by
  unfold transferEnsureActor
  split
  · exact hs
  · exact invOK_mapSet_inv hs (fun q hq => absurd hq (List.not_mem_nil q))

theorem invOK_transferEnsureEntry {s : BState} (toID h mn ut : String)
    (hs : invOK s) : invOK (transferEnsureEntry s toID h mn ut) := by
  unfold transferEnsureEntry
  split
  · exact hs
  · exact invOK_setInvEntry hs le_rfl

theorem invOK_transferCredit {s : BState} (toID h : String) (w : ℚ)
    (hs : invOK s) (hw : 0 ≤ w) : invOK (transferCredit s toID h w) := by
  unfold transferCredit
  split
  · rename_i e2 he2
    rcases Option.bind_eq_some.mp he2 with ⟨i, hi, hie⟩
    exact invOK_setInvEntry hs (add_nonneg (invOK_lookup hs hi hie) hw)
  · exact hs

theorem invOK_transferHerb (s : BState) (fromID toID h : String) (w : ℚ)
    (loc ut : String) (qual : Quality) (now : ℕ) (hs : invOK s) (hw : 0 ≤ w) :
    invOK (transferHerb s fromID toID h w loc ut qual now).1 := by
  simp only [transferHerb]
  split
  · exact hs
  · rename_i e he
    split
    · exact hs
    · rename_i mh hmh
      split
      · exact hs
      · split
        · exact hs
        · split
          · exact hs
          · rename_i hle
            exact invOK_of_inventories_eq
              (by rw [pushHistory_inventories, addBlock_inventories])
              (invOK_transferCredit toID h w
                (invOK_transferEnsureEntry toID h mh.name e.unitType
                  (invOK_transferEnsureActor toID
                    (invOK_transferDebit fromID h e w hs (not_lt.mp hle)))) hw)

theorem invOK_useHerbInMedicine (s : BState) (b mid loc : String)
    (ub : List UsedBatch) (fw : ℚ) (fu : String) (qual : Quality) (now : ℕ)
    (hs : invOK s) (hnodup : (ub.map UsedBatch.herbID).Nodup) :
    invOK (useHerbInMedicine s b mid loc ub fw fu qual now).1 := by
  simp only [useHerbInMedicine]
  split
  · exact hs
  · split
    · exact hs
    · rename_i manuInv hmanu
      split
      · exact hs
      · rename_i invalid hvalid
        split
        · exact hs
        · rename_i hnil
          have hok : validateBatches manuInv ub = .ok [] := by
            rw [hvalid, not_ne_iff.mp hnil]
          have hbound : ∀ b' ∈ ub, ∀ inv e,
              mapGet (addBlock s (toString now)
                (RecordData.useHerb mid b loc ub fw fu qual now)).inventories mid = some inv →
              mapGet inv b'.herbID = some e → b'.unitsUsed ≤ e.quantity := by
            intro b' hb' inv e hinv hie
            rw [addBlock_inventories] at hinv
            rcases validateBatches_ok_nil ub hok b' hb' with ⟨e', he', hq'⟩
            rw [hmanu] at hinv
            have : inv = manuInv := Option.some_inj.mp hinv.symm
            subst this
            rw [he'] at hie
            exact (Option.some_inj.mp hie) ▸ hq'
          have hcons := invOK_consumeBatches mid
            (RecordData.useHerb mid b loc ub fw fu qual now) ub
            (addBlock s (toString now) (RecordData.useHerb mid b loc ub fw fu qual now))
            (invOK_of_inventories_eq (addBlock_inventories ..) hs) hbound hnodup
          split
          · rename_i s2 hs2
            exact (congrArg Prod.fst hs2) ▸ hcons
          · rename_i s2 hs2
            exact (congrArg Prod.fst hs2) ▸ hcons

theorem invOK_applyOp (s : BState) (op : Op) (hs : invOK s) (hop : wfOp op) :
    invOK (applyOp s op) := by
  cases op with
  | register c h n l q u qual now => exact invOK_registerHerb s c h n l q u qual now hs
  | verify v h m now => exact invOK_verifyHerbReceipt s v h m now hs
  | transfer f t h w loc u qual now => exact invOK_transferHerb s f t h w loc u qual now hs hop
  | use b m loc ub fw fu qual now => exact invOK_useHerbInMedicine s b m loc ub fw fu qual now hs hop

theorem invOK_applyOps : ∀ (ops : List Op) (s : BState), invOK s →
    (∀ op ∈ ops, wfOp op) → invOK (applyOps s ops) := by
  intro ops
  induction ops with
  | nil => intro s hs _; exact hs
  | cons op rest ih =>
    intro s hs hwf
    exact ih (applyOp s op)
      (invOK_applyOp s op hs (hwf op (List.mem_cons_self _ _)))
      (fun op' hop' => hwf op' (List.mem_cons_of_mem _ hop'))

/-! ## UTF-8 and base64 facts for the fingerprint -/

theorem utf8Bytes_append (a b : String) :
    utf8Bytes (a ++ b) = utf8Bytes a ++ utf8Bytes b := by
  cases a with
  | mk la =>
    cases b with
    | mk lb =>
      show (la ++ lb).flatMap utf8EncodeCharNat =
        la.flatMap utf8EncodeCharNat ++ lb.flatMap utf8EncodeCharNat
      induction la with
      | nil => simp
      | cons c t ih => simp [List.flatMap_cons, ih, List.append_assoc]

theorem utf8_flatMap_of_ascii : ∀ (l : List Char), (∀ c ∈ l, c.toNat < 128) →
    l.flatMap utf8EncodeCharNat = l.map Char.toNat := by
  intro l
  induction l with
  | nil => intro _; rfl
  | cons c t ih =>
    intro h
    rw [List.flatMap_cons, List.map_cons, ih (fun x hx => h x (List.mem_cons_of_mem _ hx))]
    rw [show utf8EncodeCharNat c = [c.toNat] by
      unfold utf8EncodeCharNat
      rw [if_pos (h c (List.mem_cons_self _ _))]]
    rfl

theorem b64Char_lt (i : ℕ) : (b64Char i).toNat < 128 := by
  have h : ∀ (l : List Char) (j : ℕ) (d : Char), (∀ c ∈ l, c.toNat < 128) →
      d.toNat < 128 → (l.getD j d).toNat < 128 := by
    intro l
    induction l with
    | nil => intro j d _ hd; simpa [List.getD] using hd
    | cons a t ih =>
      intro j d hl hd
      cases j with
      | zero => simpa using hl a (List.mem_cons_self _ _)
      | succ j' =>
        rw [List.getD_cons_succ]
        exact ih j' d (fun c hc => hl c (List.mem_cons_of_mem _ hc)) hd
  exact h b64Alphabet i 'A' (by decide) (by decide)

theorem b64Encode_append : ∀ (x y : List ℕ), x.length % 3 = 0 →
    b64Encode (x ++ y) = b64Encode x ++ b64Encode y
  | [], y, _ => by simp [b64Encode]
  | [a], y, h => by simp at h
  | [a, b], y, h => by simp at h
  | a :: b :: c :: t, y, h => by
    have ht : t.length % 3 = 0 := by
      simp only [List.length_cons] at h
      omega
    simp only [List.cons_append, b64Encode, List.append_eq]
    rw [b64Encode_append t y ht]

theorem b64Encode_length : ∀ (x : List ℕ),
    (b64Encode x).length = (x.length + 2) / 3 * 4
  | [] => by simp [b64Encode]
  | [a] => by simp [b64Encode]
  | [a, b] => by simp [b64Encode]
  | a :: b :: c :: t => by
    simp only [b64Encode, List.length_cons]
    rw [b64Encode_length t]
    omega

theorem b64Encode_ascii : ∀ (x : List ℕ), ∀ c ∈ b64Encode x, c.toNat < 128
  | [] => by simp [b64Encode]
  | [a] => by
    intro c hc
    simp only [b64Encode, List.mem_cons, List.not_mem_nil, or_false] at hc
    rcases hc with h | h | h | h <;> first
      | (rw [h]; exact b64Char_lt _)
      | (rw [h]; decide)
  | [a, b] => by
    intro c hc
    simp only [b64Encode, List.mem_cons, List.not_mem_nil, or_false] at hc
    rcases hc with h | h | h | h <;> first
      | (rw [h]; exact b64Char_lt _)
      | (rw [h]; decide)
  | a :: b :: d :: t => by
    intro c hc
    simp only [b64Encode, List.mem_cons] at hc
    rcases hc with h | h | h | h | h
    · rw [h]; exact b64Char_lt _
    · rw [h]; exact b64Char_lt _
    · rw [h]; exact b64Char_lt _
    · rw [h]; exact b64Char_lt _
    · exact b64Encode_ascii t c h

theorem utf8Len_calculateHash (s : String) (h : 24 ≤ (utf8Bytes s).length) :
    24 ≤ (utf8Bytes (calculateHash s)).length := by
  unfold calculateHash
  have hascii : ∀ c ∈ (b64Encode (utf8Bytes s)).take 32, c.toNat < 128 :=
    fun c hc => b64Encode_ascii (utf8Bytes s) c (List.take_subset _ _ hc)
  show 24 ≤ (((b64Encode (utf8Bytes s)).take 32).flatMap utf8EncodeCharNat).length
  rw [utf8_flatMap_of_ascii _ hascii, List.length_map, List.length_take,
    b64Encode_length]
  omega

theorem calculateHash_eq_of_prefix (p t s1 s2 : String)
    (hp : 24 ≤ (utf8Bytes p).length) :
    calculateHash (p ++ t ++ s1) = calculateHash (p ++ t ++ s2) := by
  unfold calculateHash
  have key : ∀ (r : List ℕ),
      (b64Encode ((utf8Bytes p).take 24 ++ r)).take 32 =
        b64Encode ((utf8Bytes p).take 24) := by
    intro r
    have hlen : ((utf8Bytes p).take 24).length = 24 := by
      rw [List.length_take]
      omega
    rw [b64Encode_append _ r (by rw [hlen])]
    have h32 : (b64Encode ((utf8Bytes p).take 24)).length = 32 := by
      rw [b64Encode_length, hlen]
    have hfull : List.take 32 (b64Encode ((utf8Bytes p).take 24)) =
        b64Encode ((utf8Bytes p).take 24) := by
      rw [← h32, List.take_length]
    rw [List.take_append_eq_append_take, h32, hfull]
    simp
  have split1 : utf8Bytes (p ++ t ++ s1) =
      (utf8Bytes p).take 24 ++ ((utf8Bytes p).drop 24 ++ utf8Bytes t ++ utf8Bytes s1) := by
    rw [utf8Bytes_append, utf8Bytes_append, ← List.append_assoc, ← List.append_assoc,
      List.take_append_drop]
  have split2 : utf8Bytes (p ++ t ++ s2) =
      (utf8Bytes p).take 24 ++ ((utf8Bytes p).drop 24 ++ utf8Bytes t ++ utf8Bytes s2) := by
    rw [utf8Bytes_append, utf8Bytes_append, ← List.append_assoc, ← List.append_assoc,
      List.take_append_drop]
  rw [split1, split2, key, key]

/-! ## Chain-invariant lemmas -/

theorem genesisHash_len : 24 ≤ (utf8Bytes createGenesisBlock.hash).length := by decide

theorem utf8Len_concat_ge (p t s : String) (hp : 24 ≤ (utf8Bytes p).length) :
    24 ≤ (utf8Bytes (p ++ t ++ s)).length := by
  rw [utf8Bytes_append, utf8Bytes_append, List.length_append, List.length_append]
  omega

theorem linked_append : ∀ (l : List Block) (ph : String) (b : Block),
    linked ph l → b.previousHash = lastHash ph l →
    b.hash = calculateHash (b.previousHash ++ b.timestamp ++ serializeData b.data) →
    linked ph (l ++ [b]) := by
  intro l
  induction l with
  | nil =>
    intro ph b _ hprev hhash
    exact ⟨hprev, hhash, trivial⟩
  | cons x t ih =>
    intro ph b hl hprev hhash
    exact ⟨hl.1, hl.2.1, ih x.hash b hl.2.2 hprev hhash⟩

theorem getLatestBlock_eq_lastHash : ∀ (rest : List Block) (g : Block),
    (getLatestBlock (g :: rest)).hash = lastHash g.hash rest := by
  intro rest
  induction rest with
  | nil => intro g; rfl
  | cons x t ih =>
    intro g
    show ((g :: x :: t).getLastD createGenesisBlock).hash = lastHash x.hash t
    rw [List.getLastD_cons]
    exact ih x

theorem linked_hash_len : ∀ (l : List Block) (ph : String),
    linked ph l → 24 ≤ (utf8Bytes ph).length →
    24 ≤ (utf8Bytes (lastHash ph l)).length := by
  intro l
  induction l with
  | nil => intro ph _ hp; exact hp
  | cons b t ih =>
    intro ph hl hp
    refine ih b.hash hl.2.2 ?_
    rw [hl.2.1, hl.1]
    exact utf8Len_calculateHash _ (utf8Len_concat_ge _ _ _ hp)

theorem linked_map_upd (hid st : String) : ∀ (l : List Block) (ph : String),
    linked ph l → 24 ≤ (utf8Bytes ph).length →
    linked ph (l.map (updBlockStatus hid st)) := by
  intro l
  induction l with
  | nil => intro ph _ _; trivial
  | cons b t ih =>
    intro ph hl hp
    rcases hl with ⟨h1, h2, h3⟩
    have hlen : 24 ≤ (utf8Bytes b.hash).length := by
      rw [h2, h1]
      exact utf8Len_calculateHash _ (utf8Len_concat_ge _ _ _ hp)
    refine ⟨h1, ?_, ih b.hash h3 hlen⟩
    show b.hash = calculateHash
      (b.previousHash ++ b.timestamp ++ serializeData (setRegisterStatus hid st b.data))
    rw [h2, h1]
    exact calculateHash_eq_of_prefix ph b.timestamp _ _ hp

theorem chainInvL_addBlock {l : List Block} (hc : chainInvL l) (ts : String)
    (d : RecordData) :
    chainInvL (l ++ [mkBlock ts d (getLatestBlock l).hash]) := by
  rcases l with _ | ⟨g, rest⟩
  · exact absurd hc id
  · rcases hc with ⟨hg, hl⟩
    show g = createGenesisBlock ∧
      linked g.hash (rest ++ [mkBlock ts d (getLatestBlock (g :: rest)).hash])
    exact ⟨hg, linked_append rest g.hash _ hl
      (getLatestBlock_eq_lastHash rest g) rfl⟩

theorem chainInvL_map_upd {l : List Block} (hc : chainInvL l) (hid st : String) :
    chainInvL (l.map (updBlockStatus hid st)) := by
  rcases l with _ | ⟨g, rest⟩
  · exact absurd hc id
  · rcases hc with ⟨hg, hl⟩
    subst hg
    refine ⟨rfl, ?_⟩
    show linked (updBlockStatus hid st createGenesisBlock).hash _
    rw [show updBlockStatus hid st createGenesisBlock = createGenesisBlock from rfl]
    exact linked_map_upd hid st rest _ hl genesisHash_len

theorem chainInv_of_chain_eq {s s' : BState} (h : s'.chain = s.chain)
    (hs : chainInv s) : chainInv s' := by
  unfold chainInv
  rw [h]
  exact hs

theorem chainInv_addBlock {s : BState} (hs : chainInv s) (ts : String)
    (d : RecordData) : chainInv (addBlock s ts d) :=
  chainInvL_addBlock hs ts d

theorem transferDebit_chain (s : BState) (fromID h : String) (e : Entry) (w : ℚ) :
    (transferDebit s fromID h e w).chain = s.chain :=
  setInvEntry_chain ..

theorem transferEnsureActor_chain (s : BState) (toID : String) :
    (transferEnsureActor s toID).chain = s.chain := by
  unfold transferEnsureActor
  split <;> rfl

theorem transferEnsureEntry_chain (s : BState) (toID h mn ut : String) :
    (transferEnsureEntry s toID h mn ut).chain = s.chain := by
  unfold transferEnsureEntry
  split
  · rfl
  · exact setInvEntry_chain ..

theorem transferCredit_chain (s : BState) (toID h : String) (w : ℚ) :
    (transferCredit s toID h w).chain = s.chain := by
  unfold transferCredit
  split
  · exact setInvEntry_chain ..
  · rfl

theorem chainInv_registerHerb (s : BState) (c h n l : String) (q : ℚ) (u : String)
    (qual : Quality) (now : ℕ) (hs : chainInv s) :
    chainInv (registerHerb s c h n l q u qual now).1 := by
  unfold registerHerb
  split
  · exact hs
  · exact chainInv_of_chain_eq rfl (chainInv_addBlock hs _ _)

theorem chainInv_verifyHerbReceipt (s : BState) (v h : String) (m : ℚ) (now : ℕ)
    (hs : chainInv s) : chainInv (verifyHerbReceipt s v h m now).1 := by
  simp only [verifyHerbReceipt]
  split
  · exact hs
  · split
    · exact hs
    · split
      · split
        · refine chainInv_of_chain_eq (pushHistory_chain ..) ?_
          refine chainInv_addBlock ?_ _ _
          exact chainInvL_map_upd hs h "disputed"
        · split
          · refine chainInv_of_chain_eq (pushHistory_chain ..) ?_
            refine chainInv_addBlock ?_ _ _
            exact chainInvL_map_upd hs h "verified"
          · refine chainInv_of_chain_eq (show _ = (pushHistory
              (addBlock _ (toString now) (RecordData.verifyReceipt v h m now)) h
              (RecordData.verifyReceipt v h m now)).chain from rfl) ?_
            refine chainInv_of_chain_eq (pushHistory_chain ..) ?_
            refine chainInv_addBlock ?_ _ _
            exact chainInvL_map_upd hs h "verified"
      · exact hs

theorem chainInv_transferHerb (s : BState) (fromID toID h : String) (w : ℚ)
    (loc ut : String) (qual : Quality) (now : ℕ) (hs : chainInv s) :
    chainInv (transferHerb s fromID toID h w loc ut qual now).1 := by
  simp only [transferHerb]
  split
  · exact hs
  · split
    · exact hs
    · split
      · exact hs
      · split
        · exact hs
        · split
          · exact hs
          · refine chainInv_of_chain_eq (pushHistory_chain ..) ?_
            refine chainInv_addBlock ?_ _ _
            refine chainInv_of_chain_eq (transferCredit_chain ..) ?_
            refine chainInv_of_chain_eq (transferEnsureEntry_chain ..) ?_
            refine chainInv_of_chain_eq (transferEnsureActor_chain ..) ?_
            exact chainInv_of_chain_eq (transferDebit_chain ..) hs

theorem chainInv_useHerbInMedicine (s : BState) (b mid loc : String)
    (ub : List UsedBatch) (fw : ℚ) (fu : String) (qual : Quality) (now : ℕ)
    (hs : chainInv s) :
    chainInv (useHerbInMedicine s b mid loc ub fw fu qual now).1 := by
  simp only [useHerbInMedicine]
  split
  · exact hs
  · split
    · exact hs
    · split
      · exact hs
      · split
        · exact hs
        · have hc : chainInv (addBlock s (toString now)
              (RecordData.useHerb mid b loc ub fw fu qual now)) :=
            chainInv_addBlock hs _ _
          split
          · rename_i s2 hs2
            exact chainInv_of_chain_eq
              ((congrArg Prod.fst hs2) ▸ consumeBatches_chain mid _ ub _) hc
          · rename_i s2 hs2
            exact chainInv_of_chain_eq
              ((congrArg Prod.fst hs2) ▸ consumeBatches_chain mid _ ub _) hc

theorem chainInv_applyOp (s : BState) (op : Op) (hs : chainInv s) :
    chainInv (applyOp s op) := by
  cases op with
  | register c h n l q u qual now => exact chainInv_registerHerb s c h n l q u qual now hs
  | verify v h m now => exact chainInv_verifyHerbReceipt s v h m now hs
  | transfer f t h w loc u qual now => exact chainInv_transferHerb s f t h w loc u qual now hs
  | use b m loc ub fw fu qual now => exact chainInv_useHerbInMedicine s b m loc ub fw fu qual now hs

theorem chainInv_applyOps : ∀ (ops : List Op) (s : BState), chainInv s →
    chainInv (applyOps s ops) := by
  intro ops
  induction ops with
  | nil => intro s hs; exact hs
  | cons op rest ih => intro s hs; exact ih (applyOp s op) (chainInv_applyOp s op hs)

theorem chainInv_initialState : chainInv initialState :=
  ⟨rfl, trivial⟩

theorem chainOK_of_chainInv {l : List Block} (h : chainInvL l) : chainOK l := by
  rcases l with _ | ⟨g, rest⟩
  · exact absurd h id
  · rcases h with ⟨hg, hl⟩
    subst hg
    exact ⟨rfl, rfl, hl⟩

/-! ## Behaviour of `verifyHerbReceipt` -/

theorem statusOf_pushHistory (s : BState) (h : String) (d : RecordData)
    (h' : String) : statusOf (pushHistory s h d) h' = statusOf s h' := by
  unfold pushHistory statusOf
  split
  · rename_i mh hmh
    show (mapGet (mapSet s.metadata h _) h').map _ = _
    rw [mapGet_mapSet]
    by_cases he : h' = h
    · subst he
      rw [if_pos rfl, hmh]
      rfl
    · rw [if_neg he]
  · rfl

theorem statusOf_set_inventories (s : BState) (y : List (String × List (String × Entry)))
    (h : String) : statusOf { s with inventories := y } h = statusOf s h := rfl

theorem verifyHerbReceipt_status (s : BState) (v h : String) (m : ℚ) (now : ℕ)
    (mh : MasterHerb) (c h0 n l : String) (claimed : ℚ) (regUnit : String)
    (qual : Quality) (ts : ℕ) (st0 : String)
    (h1 : mapGet s.metadata h = some mh)
    (h2 : mh.status = "pending_verification")
    (h3 : mh.history.head? = some (.register c h0 n l claimed regUnit qual ts st0)) :
    statusOf (verifyHerbReceipt s v h m now).1 h =
      some (if |claimed - m| > claimed * (2 / 100) then "disputed" else "verified") := by
  simp only [verifyHerbReceipt, h1]
  rw [if_neg (by rw [h2]; simp)]
  rw [h3]
  split
  · rename_i c' h0' n' l' claimed' regUnit' qual' ts' st0' heq
    simp only [Option.some_inj, RecordData.register.injEq] at heq
    obtain ⟨hc, _, _, _, hclaimed, _, _, _, _⟩ := heq
    subst hc
    subst hclaimed
    split
    · rw [statusOf_pushHistory]
      show (mapGet (mapSet s.metadata h _) h).map _ = _
      rw [mapGet_mapSet, if_pos rfl]
      rfl
    · split
      · rw [statusOf_pushHistory]
        show (mapGet (mapSet s.metadata h _) h).map _ = _
        rw [mapGet_mapSet, if_pos rfl]
        rfl
      · rw [statusOf_set_inventories, statusOf_pushHistory]
        show (mapGet (mapSet s.metadata h _) h).map _ = _
        rw [mapGet_mapSet, if_pos rfl]
        rfl
  · rename_i hno
    exact absurd rfl (hno c h0 n l claimed regUnit qual ts st0)

theorem BState_mk_inventories (ch : List Block) (md : List (String × MasterHerb))
    (iv : List (String × List (String × Entry))) (rp : List (String × ℚ)) :
    (BState.mk ch md iv rp).inventories = iv := rfl

theorem BState_mk_chain (ch : List Block) (md : List (String × MasterHerb))
    (iv : List (String × List (String × Entry))) (rp : List (String × ℚ)) :
    (BState.mk ch md iv rp).chain = ch := rfl

theorem BState_mk_metadata (ch : List Block) (md : List (String × MasterHerb))
    (iv : List (String × List (String × Entry))) (rp : List (String × ℚ)) :
    (BState.mk ch md iv rp).metadata = md := rfl

theorem BState_mk_reputation (ch : List Block) (md : List (String × MasterHerb))
    (iv : List (String × List (String × Entry))) (rp : List (String × ℚ)) :
    (BState.mk ch md iv rp).reputationScores = rp := rfl

theorem rep_set_inventories (s : BState) (y : List (String × List (String × Entry))) :
    ({ s with inventories := y } : BState).reputationScores = s.reputationScores := rfl

theorem chain_set_inventories (s : BState) (y : List (String × List (String × Entry))) :
    ({ s with inventories := y } : BState).chain = s.chain := rfl

theorem inventories_set_inventories (s : BState)
    (y : List (String × List (String × Entry))) :
    ({ s with inventories := y } : BState).inventories = y := rfl

/-- C5 (amended): for every successful `verifyHerbReceipt` call (item
registered, status `pending_verification`, difference within the 2%
tolerance, verifier's inventory object present, verifier distinct from
the registrant): the item's status becomes `verified`, the registrant's
reputation becomes its default-100 lookup plus exactly 1, the verifier's
reputation is unchanged (the code never rewards the verifier), a
`VerifyReceipt` record is appended as the newest chain block, and the
verifier's inventory for the item is credited with the measured (not the
claimed) quantity under the unit type from registration. -/
theorem verifyHerbReceipt_success (s : BState) (v h : String) (m : ℚ) (now : ℕ)
    (mh : MasterHerb) (c h0 n l : String) (claimed : ℚ) (regUnit : String)
    (qual : Quality) (ts : ℕ) (st0 : String) (inv : List (String × Entry))
    (h1 : mapGet s.metadata h = some mh)
    (h2 : mh.status = "pending_verification")
    (h3 : mh.history.head? = some (.register c h0 n l claimed regUnit qual ts st0))
    (h4 : ¬ |claimed - m| > claimed * (2 / 100))
    (h5 : mapGet s.inventories v = some inv)
    (h6 : v ≠ c) :
    (verifyHerbReceipt s v h m now).2 = .ok (.success (.verified h m))
    ∧ statusOf (verifyHerbReceipt s v h m now).1 h = some "verified"
    ∧ mapGet (verifyHerbReceipt s v h m now).1.reputationScores c =
        some (jsRepGet s.reputationScores c + 1)
    ∧ mapGet (verifyHerbReceipt s v h m now).1.reputationScores v =
        mapGet s.reputationScores v
    ∧ lastRecord (verifyHerbReceipt s v h m now).1 =
        some (.verifyReceipt v h m now)
    ∧ invEntry (verifyHerbReceipt s v h m now).1 v h =
        some ⟨mh.name, m, regUnit⟩ := by
  simp only [verifyHerbReceipt, h1]
  rw [if_neg (by rw [h2]; simp)]
  rw [h3]
  split
  · rename_i c' h0' n' l' claimed' regUnit' qual' ts' st0' heq
    simp only [Option.some_inj, RecordData.register.injEq] at heq
    obtain ⟨hc, _, _, _, hclaimed, hregUnit, _, _, _⟩ := heq
    subst hc
    subst hclaimed
    subst hregUnit
    rw [if_neg h4]
    rw [pushHistory_inventories, addBlock_inventories, BState_mk_inventories, h5]
    refine ⟨rfl, ?_, ?_, ?_, ?_, ?_⟩
    · rw [statusOf_set_inventories, statusOf_pushHistory]
      show (mapGet (mapSet s.metadata h _) h).map _ = _
      rw [mapGet_mapSet, if_pos rfl]
      rfl
    · rw [rep_set_inventories, pushHistory_reputation, addBlock_reputation]
      show mapGet (mapSet s.reputationScores c _) c = _
      rw [mapGet_mapSet, if_pos rfl]
    · rw [rep_set_inventories, pushHistory_reputation, addBlock_reputation]
      show mapGet (mapSet s.reputationScores c _) v = _
      rw [mapGet_mapSet, if_neg h6]
    · unfold lastRecord
      rw [chain_set_inventories, pushHistory_chain, addBlock_chain,
        List.getLast?_concat]
      rfl
    · unfold invEntry
      rw [inventories_set_inventories]
      rw [mapGet_mapSet, if_pos rfl, Option.some_bind, mapGet_mapSet, if_pos rfl]
  · rename_i hno
    exact absurd rfl (hno c h0 n l claimed regUnit qual ts st0)

/-! ## Behaviour of `transferHerb` and `useHerbInMedicine` -/

/-- C6 (amended): for every `useHerbInMedicine` call with a quality
score below 60, the call fails with the quality-blocked message and the
state — including every reputation score — is completely unchanged: no
reputation penalty of any size is applied on this failure path. -/
theorem useHerbInMedicine_quality_blocked (s : BState) (b mid loc : String)
    (ub : List UsedBatch) (fw : ℚ) (fu : String) (qual : Quality) (now : ℕ)
    (hq : qual.score < 60) :
    useHerbInMedicine s b mid loc ub fw fu qual now =
      (s, .ok (.failure (.qualityBelowThreshold qual.score))) := by
  simp only [useHerbInMedicine]
  rw [if_pos hq]

/-- C7 (amended): once an item's status is `disputed`, every
`transferHerb` call for that item fails and leaves the state unchanged —
but the failure kind depends on inventory presence: `ItemNotTransferable`
when the item id is present in the sender's inventory, and `ItemNotFound`
when it is absent (which is what actually happens in reachable states,
since a disputed item is never credited to any inventory). -/
theorem transferHerb_disputed (s : BState) (fromID toID h : String) (w : ℚ)
    (loc ut : String) (qual : Quality) (now : ℕ) (mh : MasterHerb)
    (h1 : mapGet s.metadata h = some mh) (h2 : mh.status = "disputed") :
    (transferHerb s fromID toID h w loc ut qual now).1 = s
    ∧ (invEntry s fromID h = none →
        (transferHerb s fromID toID h w loc ut qual now).2 =
          .ok (.failure .itemNotFound))
    ∧ (∀ e, invEntry s fromID h = some e →
        (transferHerb s fromID toID h w loc ut qual now).2 =
          .ok (.failure .itemNotTransferable)) := by
  simp only [transferHerb]
  split
  · rename_i hE
    refine ⟨rfl, fun _ => rfl, fun e he => ?_⟩
    simp [invEntry, hE] at he
  · rename_i e hE
    split
    · rename_i hmeta
      rw [h1] at hmeta
      exact absurd hmeta (by simp)
    · rename_i mh' hmh'
      rw [h1] at hmh'
      have hmm : mh = mh' := Option.some_inj.mp hmh'
      subst hmm
      rw [if_pos (by rw [h2]; decide)]
      refine ⟨rfl, ?_, fun e' _ => rfl⟩
      intro hnone
      simp [invEntry, hE] at hnone

theorem transferHerb_no_weight_check (s : BState) (fromID toID h : String)
    (w : ℚ) (loc ut : String) (qual : Quality) (now : ℕ) (mh : MasterHerb)
    (inv : List (String × Entry)) (e : Entry)
    (h1 : mapGet s.inventories fromID = some inv)
    (h2 : mapGet inv h = some e)
    (h3 : mapGet s.metadata h = some mh)
    (h4 : mh.status = "verified")
    (h5 : e.unitType = ut)
    (h6 : w ≤ 0)
    (h7 : 0 ≤ e.quantity) :
    (transferHerb s fromID toID h w loc ut qual now).2 =
      .ok (.success (.transferred w ut mh.name))
    ∧ lastRecord (transferHerb s fromID toID h w loc ut qual now).1 =
        some (.transfer fromID toID h w ut loc qual now) := by
  have hbind : (mapGet s.inventories fromID).bind (fun inv => mapGet inv h) = some e := by
    rw [h1, Option.some_bind, h2]
  simp only [transferHerb]
  split
  · rename_i hE
    rw [hbind] at hE
    exact absurd hE (by simp)
  · rename_i e' hE
    rw [hbind] at hE
    have hee : e = e' := Option.some_inj.mp hE
    subst hee
    split
    · rename_i hmeta
      rw [h3] at hmeta
      exact absurd hmeta (by simp)
    · rename_i mh' hmh'
      rw [h3] at hmh'
      have hmm : mh = mh' := Option.some_inj.mp hmh'
      subst hmm
      rw [if_neg (by rw [h4]; decide)]
      rw [if_neg (by rw [h5]; simp)]
      rw [if_neg (not_lt.mpr (le_trans h6 h7))]
      refine ⟨rfl, ?_⟩
      unfold lastRecord
      rw [pushHistory_chain, addBlock_chain, List.getLast?_concat]
      rfl

/-! ## Claims -/

deriving instance DecidableEq for Except

section ClaimEvaluation

attribute [local semireducible] Rat.add Rat.mul Rat.sub Rat.inv

/-- C1 (counterexample): the claimed inventory invariant fails on the
code.  A `transferHerb` call with weight −5 on a verified batch of 10
succeeds and leaves the recipient's inventory at −5; a
`useHerbInMedicine` call naming the same batch twice (each within the
available 4) succeeds and leaves the manufacturer's inventory at −4.
Both states are reachable, so neither operation rejects every request
that drives a quantity below 0. -/
theorem C1_counterexample :
    negTransfer.2 = .ok (.success (.transferred (-5) "Kg" "Tulsi"))
    ∧ invEntry negTransfer.1 "MANU-001" "H1" = some ⟨"Tulsi", -5, "Kg"⟩
    ∧ ((-5 : ℚ) < 0)
    ∧ dupConsume.2 = .ok (.success (.produced "B2"))
    ∧ invEntry dupConsume.1 "MANU-001" "H1" = some ⟨"Tulsi", -4, "Kg"⟩
    ∧ ((-4 : ℚ) < 0) := by
  refine ⟨by decide, by decide, by decide, by decide, by decide, by decide⟩

/-- C1 (amended): for every operation sequence from the initial state in
which every `transferHerb` weight is nonnegative and every
`useHerbInMedicine` call uses pairwise-distinct herb ids, every
inventory quantity in every reachable state stays ≥ 0. -/
theorem C1_inventory_nonneg (ops : List Op) (hwf : ∀ op ∈ ops, wfOp op) :
    invOK (applyOps initialState ops) :=
  invOK_applyOps ops initialState (by decide) hwf

/-- C1 witness: the end-to-end scenario (register 10 Kg, verify 10,
transfer 4, consume 4) is well-formed and its final state satisfies the
nonnegativity invariant. -/
theorem C1_inventory_nonneg_witness :
    (∀ op ∈ demoOps, wfOp op) ∧ invOK (applyOps initialState demoOps) :=
  ⟨by decide, C1_inventory_nonneg demoOps (by decide)⟩

/-- C2 (code bug): `useHerbInMedicine`, called on the initial state with
quality 80 and a used batch absent from the manufacturer's inventory,
throws a `TypeError` (the message template reads `.unitType` of
`undefined`) instead of returning a `{success: false}` result. -/
theorem C2_useHerb_throws :
    useHerbInMedicine initialState "B1" "MANU-001" "Loc"
      [⟨"H9", 1, "Kg"⟩] 10 "Units" ⟨80, "Good"⟩ 0 =
    (initialState, .error .typeError) := by decide

/-- C3 (code bug): with quality 80, a known manufacturer holding 4 Kg of
`H1`, and `usedBatches` containing one valid entry (`H1`) and one entry
absent from the inventory (`H2`), `useHerbInMedicine` throws a
`TypeError` instead of returning the aggregated
`InsufficientOrMismatchedBatches` failure (the state is left unchanged
only because the throw happens during validation). -/
theorem C3_aggregation_throws :
    useHerbInMedicine trState "B2" "MANU-001" "Plant C"
      [⟨"H1", 2, "Kg"⟩, ⟨"H2", 1, "Kg"⟩] 5 "Units" ⟨80, "Good"⟩ 9 =
    (trState, .error .typeError) := by decide

/-- C4: on an item registered with claimed quantity 100 and status
`pending_verification`, `verifyHerbReceipt` disputes exactly when
`|claimed - measured|` strictly exceeds `claimed * 0.02 = 2`: measuring
98 verifies the batch, measuring 97.9 disputes it. -/
theorem C4_tolerance_strict :
    (∀ m : ℚ, statusOf (verifyHerbReceipt regState100 "SUPPLIER-001" "H1" m 2).1 "H1" =
      some (if |(100 : ℚ) - m| > 100 * (2 / 100) then "disputed" else "verified"))
    ∧ statusOf (verifyHerbReceipt regState100 "SUPPLIER-001" "H1" 98 2).1 "H1" =
        some "verified"
    ∧ (verifyHerbReceipt regState100 "SUPPLIER-001" "H1" 98 2).2 =
        .ok (.success (.verified "H1" 98))
    ∧ statusOf (verifyHerbReceipt regState100 "SUPPLIER-001" "H1" (979/10) 2).1 "H1" =
        some "disputed"
    ∧ (verifyHerbReceipt regState100 "SUPPLIER-001" "H1" (979/10) 2).2 =
        .ok (.failure .fraudDetected) := by
  refine ⟨?_, by decide, by decide, by decide, by decide⟩
  intro m
  exact verifyHerbReceipt_status regState100 "SUPPLIER-001" "H1" m 2
    ⟨"Tulsi", "Farm A", qGood,
      [RecordData.register "COLLECTOR-001" "H1" "Tulsi" "Farm A" 100 "Kg" qGood 1
        "pending_verification"], "pending_verification"⟩
    "COLLECTOR-001" "H1" "Tulsi" "Farm A" 100 "Kg" qGood 1 "pending_verification"
    (by decide) rfl rfl

/-- C5 (counterexample): a successful verification does not increment
the verifier's reputation: after registering with claimed 100 and
verifying with measured 98, `SUPPLIER-001`'s reputation is still 100. -/
theorem C5_verifier_rep_unchanged :
    (verifyHerbReceipt regState100 "SUPPLIER-001" "H1" 98 2).2 =
      .ok (.success (.verified "H1" 98))
    ∧ mapGet regState100.reputationScores "SUPPLIER-001" = some 100
    ∧ mapGet (verifyHerbReceipt regState100 "SUPPLIER-001" "H1" 98 2).1.reputationScores
        "SUPPLIER-001" = some 100 := by
  refine ⟨by decide, by decide, by decide⟩

/-- C5 witness: the amended success contract holds on the concrete
register-then-verify run (claimed 100, measured 98): success result,
status `verified`, registrant reputation 100 + 1, verifier reputation
unchanged, `VerifyReceipt` record appended, and the verifier's inventory
credited with the measured quantity 98 under the registered unit `Kg`. -/
theorem C5_verify_success_witness :
    (verifyHerbReceipt regState100 "SUPPLIER-001" "H1" 98 2).2 =
      .ok (.success (.verified "H1" 98))
    ∧ statusOf (verifyHerbReceipt regState100 "SUPPLIER-001" "H1" 98 2).1 "H1" =
        some "verified"
    ∧ mapGet (verifyHerbReceipt regState100 "SUPPLIER-001" "H1" 98 2).1.reputationScores
        "COLLECTOR-001" = some (jsRepGet regState100.reputationScores "COLLECTOR-001" + 1)
    ∧ mapGet (verifyHerbReceipt regState100 "SUPPLIER-001" "H1" 98 2).1.reputationScores
        "SUPPLIER-001" = mapGet regState100.reputationScores "SUPPLIER-001"
    ∧ lastRecord (verifyHerbReceipt regState100 "SUPPLIER-001" "H1" 98 2).1 =
        some (.verifyReceipt "SUPPLIER-001" "H1" 98 2)
    ∧ invEntry (verifyHerbReceipt regState100 "SUPPLIER-001" "H1" 98 2).1
        "SUPPLIER-001" "H1" = some ⟨"Tulsi", 98, "Kg"⟩ :=
  verifyHerbReceipt_success regState100 "SUPPLIER-001" "H1" 98 2
    ⟨"Tulsi", "Farm A", qGood,
      [RecordData.register "COLLECTOR-001" "H1" "Tulsi" "Farm A" 100 "Kg" qGood 1
        "pending_verification"], "pending_verification"⟩
    "COLLECTOR-001" "H1" "Tulsi" "Farm A" 100 "Kg" qGood 1 "pending_verification"
    [] (by decide) rfl rfl (by decide) (by decide) (by decide)

/-- C6 (counterexample): `useHerbInMedicine` with a quality score of 59
fails with the quality-blocked message but applies no reputation
penalty: the state — including `MANU-001`'s reputation of 100 — is
completely unchanged (the claim's −5 penalty would leave 95). -/
theorem C6_no_reputation_penalty :
    (useHerbInMedicine initialState "B1" "MANU-001" "L" [] 10 "Units"
        ⟨59, "Poor"⟩ 0).2 = .ok (.failure (.qualityBelowThreshold 59))
    ∧ (useHerbInMedicine initialState "B1" "MANU-001" "L" [] 10 "Units"
        ⟨59, "Poor"⟩ 0).1 = initialState
    ∧ mapGet (useHerbInMedicine initialState "B1" "MANU-001" "L" [] 10 "Units"
        ⟨59, "Poor"⟩ 0).1.reputationScores "MANU-001" = some 100 := by
  refine ⟨by decide, by decide, by decide⟩

/-- C6 witness: the quality-gate rejection at score 59 on the initial
state returns the failure result and the unchanged state. -/
theorem C6_quality_blocked_witness :
    useHerbInMedicine initialState "B1" "MANU-001" "L" [] 10 "Units"
      ⟨59, "Poor"⟩ 0 =
    (initialState, .ok (.failure (.qualityBelowThreshold 59))) :=
  useHerbInMedicine_quality_blocked initialState "B1" "MANU-001" "L" [] 10
    "Units" ⟨59, "Poor"⟩ 0 (by decide)

/-- C7 (counterexample): after `H2` (claimed 10, measured 5) becomes
disputed, a transfer attempt fails — but with the `ItemNotFound` message
(the disputed batch was never credited to any inventory), not the
claimed `ItemNotTransferable`. -/
theorem C7_disputed_not_found :
    statusOf dispState "H2" = some "disputed"
    ∧ (transferHerb dispState "SUPPLIER-001" "MANU-001" "H2" 1 "L" "Kg" qGood 3).2 =
        .ok (.failure .itemNotFound)
    ∧ ErrorKind.itemNotFound ≠ ErrorKind.itemNotTransferable := by
  refine ⟨by decide, by decide, by decide⟩

/-- C7 witness: on the concrete disputed state, the transfer attempt
leaves the state unchanged and fails with `ItemNotFound` (the item is
absent from the sender's inventory). -/
theorem C7_disputed_witness :
    (transferHerb dispState "SUPPLIER-001" "MANU-001" "H2" 1 "L" "Kg" qGood 3).1 =
      dispState
    ∧ (transferHerb dispState "SUPPLIER-001" "MANU-001" "H2" 1 "L" "Kg" qGood 3).2 =
        .ok (.failure .itemNotFound) := by
  rcases hmh : mapGet dispState.metadata "H2" with _ | mh
  · exact absurd hmh (by decide)
  · have hdisp : statusOf dispState "H2" = some "disputed" := by decide
    unfold statusOf at hdisp
    rw [hmh] at hdisp
    have hst : mh.status = "disputed" := Option.some_inj.mp hdisp
    have h := transferHerb_disputed dispState "SUPPLIER-001" "MANU-001" "H2" 1
      "L" "Kg" qGood 3 mh hmh hst
    exact ⟨h.1, h.2.1 (by decide)⟩

/-- C8: every chain reachable by engine operations from the initial
state starts with the genesis block (whose `previousHash` is `"0"`), and
from index 1 on each block's `previousHash` equals its predecessor's
`hash` while its stored `hash` is reproduced by recomputing
`calculateHash` over `(previousHash, timestamp, serialized record)` —
the in-place status mutation performed by `verifyHerbReceipt` does not
break this, because the 32-character base64 fingerprint depends only on
the first 24 bytes of its input, which the previous hash fills. -/
theorem C8_chain_integrity (ops : List Op) :
    chainOK (applyOps initialState ops).chain :=
  chainOK_of_chainInv (chainInv_applyOps ops initialState chainInv_initialState)

/-- C9: `recordScan` (modelled from the spec, absent from the source) is
a replay guard: the first scan of a unit id inserts it with the current
timestamp and reports `firstSeen = true`; a later scan of the same id
reports `firstSeen = false` with the originally stored timestamp and
returns the scan log unchanged. -/
theorem C9_recordScan_replay_guard (log : List (String × ℕ)) (u : String)
    (now now' : ℕ) (h : mapGet log u = none) :
    recordScan log u now = (mapSet log u now, true, now)
    ∧ mapGet (recordScan log u now).1 u = some now
    ∧ recordScan (recordScan log u now).1 u now' =
        ((recordScan log u now).1, false, now) := by
  have h1 : recordScan log u now = (mapSet log u now, true, now) := by
    unfold recordScan
    rw [h]
  have h2 : mapGet (recordScan log u now).1 u = some now := by
    rw [h1, mapGet_mapSet, if_pos rfl]
  refine ⟨h1, h2, ?_⟩
  rw [h1]
  show recordScan (mapSet log u now) u now' = (mapSet log u now, false, now)
  unfold recordScan
  rw [mapGet_mapSet, if_pos rfl]

/-- C9 witness: scanning `UNIT-1` on an empty log at time 5 inserts it
and reports first-seen; a second scan at time 9 reports a replay with
the stored timestamp 5 and leaves the log unchanged. -/
theorem C9_recordScan_witness :
    recordScan [] "UNIT-1" 5 = ([("UNIT-1", 5)], true, 5)
    ∧ recordScan (recordScan [] "UNIT-1" 5).1 "UNIT-1" 9 =
        ((recordScan [] "UNIT-1" 5).1, false, 5) := by
  have h := C9_recordScan_replay_guard [] "UNIT-1" 5 9 (by decide)
  exact ⟨by decide, h.2.2⟩

/-- C10: `transferHerb` never checks that the weight is positive: on any
state, for a verified item present in the sender's inventory with a
nonnegative quantity and matching unit type, any weight ≤ 0 is accepted
and a `TransferHerb` record is appended; concretely, transferring −5 Kg
of the verified 10 Kg batch `H1` raises the sender's quantity to 15 and
creates the recipient's entry at −5. -/
theorem C10_transfer_weight_unchecked :
    (∀ (s : BState) (fromID toID h : String) (w : ℚ) (loc : String)
      (qual : Quality) (now : ℕ) (mh : MasterHerb)
      (inv : List (String × Entry)) (e : Entry),
      mapGet s.inventories fromID = some inv →
      mapGet inv h = some e →
      mapGet s.metadata h = some mh →
      mh.status = "verified" →
      w ≤ 0 →
      0 ≤ e.quantity →
      (transferHerb s fromID toID h w loc e.unitType qual now).2 =
        .ok (.success (.transferred w e.unitType mh.name))
      ∧ lastRecord (transferHerb s fromID toID h w loc e.unitType qual now).1 =
          some (.transfer fromID toID h w e.unitType loc qual now))
    ∧ negTransfer.2 = .ok (.success (.transferred (-5) "Kg" "Tulsi"))
    ∧ invEntry verState "SUPPLIER-001" "H1" = some ⟨"Tulsi", 10, "Kg"⟩
    ∧ invEntry negTransfer.1 "SUPPLIER-001" "H1" = some ⟨"Tulsi", 15, "Kg"⟩
    ∧ invEntry negTransfer.1 "MANU-001" "H1" = some ⟨"Tulsi", -5, "Kg"⟩
    ∧ ((-5 : ℚ) < 0) := by
  refine ⟨?_, by decide, by decide, by decide, by decide, by decide⟩
  intro s fromID toID h w loc qual now mh inv e h1 h2 h3 h4 h6 h7
  exact transferHerb_no_weight_check s fromID toID h w loc e.unitType qual now
    mh inv e h1 h2 h3 h4 rfl h6 h7

/-- C10 witness: the general no-positivity-check clause applied to the
concrete verified state: transferring −5 Kg of `H1` succeeds and appends
the `TransferHerb` record. -/
theorem C10_transfer_weight_witness :
    (transferHerb verState "SUPPLIER-001" "MANU-001" "H1" (-5) "Depot B" "Kg"
        qGood 3).2 = .ok (.success (.transferred (-5) "Kg" "Tulsi"))
    ∧ lastRecord (transferHerb verState "SUPPLIER-001" "MANU-001" "H1" (-5)
        "Depot B" "Kg" qGood 3).1 =
      some (.transfer "SUPPLIER-001" "MANU-001" "H1" (-5) "Kg" "Depot B" qGood 3) :=
  C10_transfer_weight_unchecked.1 verState "SUPPLIER-001" "MANU-001" "H1" (-5)
    "Depot B" qGood 3
    ⟨"Tulsi", "Farm A", qGood,
      [RecordData.register "COLLECTOR-001" "H1" "Tulsi" "Farm A" 10 "Kg" qGood 1
        "verified",
       RecordData.verifyReceipt "SUPPLIER-001" "H1" 10 2], "verified"⟩
    [("H1", ⟨"Tulsi", 10, "Kg"⟩)] ⟨"Tulsi", 10, "Kg"⟩
    (by decide) (by decide) (by decide) rfl (by decide) (by decide)

end ClaimEvaluation

end HerbChain
